import Mathlib

/-!
Shallow embedding of the IMAP storage-backend core of the forwardemail.net
repository: the EXPUNGE and UNSUBSCRIBE command handlers
(`helpers/imap/on-expunge.js`, `helpers/on-close.js`), and the SQLite
websocket server's broadcast, upgrade authentication and message dispatch
(`sqlite-server` class).

Machine integers do not occur in the modelled code paths; ids, UIDs and
times are modelled as `Nat`, protocol strings as `String`, fallible calls
as `Except`/`Option`, and the side effects of one invocation as an ordered
event trace.
-/

namespace ForwardEmail

/-- Message row inside a mailbox database (`§3 Data Model`): `_id`,
owning mailbox id, UID, soft-delete marker `undeleted`, the attachment ids
listed in its `mimeTree.attachmentMap`. -/
structure Message where
  mid : Nat
  mailbox : Nat
  uid : Nat
  undeleted : Bool
  attachmentIds : List Nat
  deriving DecidableEq, Repr

/-- Mailbox row: `_id`, hierarchical path, subscription flag. -/
structure Mailbox where
  mid : Nat
  path : String
  subscribed : Bool
  deriving DecidableEq, Repr

/-- The `update` descriptor passed to EXPUNGE: `isUid` marks a
UID-range-qualified expunge (`tools.checkRangeQuery(update.messages)`
modelled as the inclusive range `lo..hi`), `silent` suppresses EXPUNGE
writes for non-selected sessions. -/
structure Update where
  isUid : Bool
  lo : Nat
  hi : Nat
  silent : Bool
  deriving DecidableEq, Repr

/-- The slice of the session state the handlers read: the currently
selected mailbox id (if any) and the owning account (`user.alias_id`). -/
structure Session where
  selectedMailbox : Option Nat
  aliasId : Nat
  deriving DecidableEq, Repr

/-- An error value; `imapResponse` is the optional protocol-level response
code attached to `IMAPError`s (e.g. `NONEXISTENT`). -/
structure Err where
  imapResponse : Option String
  deriving DecidableEq, Repr

/-- One observable side effect of a backend EXPUNGE invocation, in program
order: lock acquisition/release (`acquireLock`/`releaseLock`),
`Messages.deleteOne`, `attachmentStorage.deleteMany`,
`notifier.addEntries`, `notifier.fire`, the async `size` RPC, and a
`logger.fatal` call for a swallowed error. -/
inductive Event where
  | acquireLock
  | releaseLock
  | deleteOne (uid : Nat)
  | deleteMany (attachmentIds : List Nat)
  | addEntries (uid : Nat)
  | fire (aliasId : Nat)
  | sizeRequest
  | logFatal
  deriving DecidableEq, Repr

/-- What the backend handler reports through the protocol callback `fn`:
`ok writes` for `fn(null, true, writeStream)`, `imapCode c` for
`fn(null, err.imapResponse)`, `fnErr e` for `fn(refineAndLogError(err))`. -/
inductive FnResult where
  | ok (writes : List (String × Nat))
  | imapCode (code : String)
  | fnErr (e : Err)
  deriving DecidableEq, Repr

/-- Environment of one backend EXPUNGE invocation: the database contents
plus the outcome of each fallible collaborator call. `deleteResult` gives
`Messages.deleteOne`'s `deletedCount` for a message id (or the error it
throws); `attachFail`/`entriesFail` inject errors thrown by
`attachmentStorage.deleteMany` / `notifier.addEntries`; `queryError` is an
error thrown by the message select statement; `lockError` an error thrown
by `acquireLock`. -/
structure ExpungeEnv where
  mailboxes : List Mailbox
  messages : List Message
  lockError : Option Err
  queryError : Option Err
  deleteResult : Nat → Except Err Nat
  attachFail : Nat → Bool
  entriesFail : Nat → Bool

/-- Truth of `uid` lying in the client's requested UID range. -/
def uidInRange (u : Update) (uid : Nat) : Bool :=
  u.lo ≤ uid && uid ≤ u.hi

/-- The select condition built by `onExpunge`: same mailbox, `undeleted:
false`, and — only when `update.isUid` — the UID range restriction. -/
def matchesCondition (mailboxId : Nat) (u : Update) (m : Message) : Bool :=
  m.mailbox == mailboxId && m.undeleted == false && (!u.isUid || uidInRange u m.uid)

/-- Comparison used by the select's `sort: 'uid'` clause. -/
def uidLE (a b : Message) : Prop := a.uid ≤ b.uid

instance : DecidableRel uidLE := fun a b => Nat.decLe a.uid b.uid

instance : IsTotal Message uidLE := ⟨fun a b => Nat.le_total a.uid b.uid⟩

instance : IsTrans Message uidLE := ⟨fun _ _ _ => Nat.le_trans⟩

/-- The message query of `onExpunge`: rows of the target mailbox whose
soft-delete marker is set (restricted to the UID range when `isUid`),
fetched in ascending UID order. -/
def selectMessages (env : ExpungeEnv) (mailboxId : Nat) (u : Update) : List Message :=
  List.insertionSort uidLE (env.messages.filter (matchesCondition mailboxId u))

/-- Result of the per-message loop of `onExpunge`: the event trace, the
queued protocol writes, ids of rows whose deletion affected exactly one
row, and the error (if any) that aborted the loop. -/
structure LoopResult where
  events : List Event
  writes : List (String × Nat)
  deletedIds : List Nat
  err : Option Err
  deriving Repr

/-- Events emitted for one message whose row deletion affected exactly one
row: the `deleteMany` attempt over its attachment-map ids when nonempty
(a thrown error is logged, never raised), then `addEntries` followed by
`fire` unless `addEntries` threw (that error too is logged, never
raised). -/
def deletedEvents (env : ExpungeEnv) (session : Session) (m : Message) : List Event :=
  (if m.attachmentIds.length > 0 then
      Event.deleteMany m.attachmentIds ::
        (if env.attachFail m.mid then [Event.logFatal] else [])
    else []) ++
  (if env.entriesFail m.mid then [Event.logFatal]
    else [Event.addEntries m.uid, Event.fire session.aliasId])

/-- The EXPUNGE protocol write queued for one deleted message, unless the
client requested silent mode and the expunging session does not have the
mailbox selected. -/
def deletedWrites (mb : Mailbox) (session : Session) (u : Update) (m : Message) :
    List (String × Nat) :=
  if !u.silent || session.selectedMailbox == some mb.mid then
    [("EXPUNGE", m.uid)]
  else []

/-- The per-message loop of `onExpunge` (backend role): delete each row;
on `deletedCount === 1` run the attachment GC / write / notify block; an
error thrown by `deleteOne` aborts the loop and is captured. -/
def processMessages (env : ExpungeEnv) (mb : Mailbox) (session : Session) (u : Update) :
    List Message → LoopResult
  | [] => ⟨[], [], [], none⟩
  | m :: rest =>
    match env.deleteResult m.mid with
    | .error e => ⟨[Event.deleteOne m.uid], [], [], some e⟩
    | .ok deletedCount =>
      if deletedCount == 1 then
        let r := processMessages env mb session u rest
        ⟨Event.deleteOne m.uid :: (deletedEvents env session m ++ r.events),
          deletedWrites mb session u m ++ r.writes,
          m.mid :: r.deletedIds, r.err⟩
      else
        let r := processMessages env mb session u rest
        ⟨Event.deleteOne m.uid :: r.events, r.writes, r.deletedIds, r.err⟩

/-- Outcome of one backend EXPUNGE invocation: the ordered event trace,
what was passed to the protocol callback, and the message table afterward. -/
structure Outcome where
  events : List Event
  result : FnResult
  remaining : List Message
  deriving Repr

/-- Mapping of a propagated error onto the protocol callback, as done by
the outer catch of `onExpunge`: an attached `imapResponse` is reported as
`fn(null, err.imapResponse)`, anything else as a generic failure. -/
def errToResult (e : Err) : FnResult :=
  match e.imapResponse with
  | some code => .imapCode code
  | none => .fnErr e

/-- Backend (non-`IMAP` role) path of `onExpunge`
(`helpers/imap/on-expunge.js`): resolve the mailbox by id (throwing
`NONEXISTENT` before any lock when absent), acquire the lock, select the
soft-deleted messages in ascending UID order, run the per-message loop
capturing its first error, release the lock, issue the async `size`
request, then rethrow the captured error — the outer catch releases the
still-`success` lock once more and maps the error onto the callback — or
report success with the queued writes. -/
def onExpungeBackend (env : ExpungeEnv) (mailboxId : Nat) (u : Update)
    (session : Session) : Outcome :=
  match env.mailboxes.find? (fun mb => mb.mid == mailboxId) with
  | none => ⟨[], .imapCode "NONEXISTENT", env.messages⟩
  | some mb =>
    match env.lockError with
    | some e => ⟨[], errToResult e, env.messages⟩
    | none =>
      match env.queryError with
      | some e =>
        ⟨[Event.acquireLock, Event.releaseLock, Event.sizeRequest, Event.releaseLock],
          errToResult e, env.messages⟩
      | none =>
        match (processMessages env mb session u (selectMessages env mb.mid u)).err with
        | none =>
          ⟨Event.acquireLock ::
              ((processMessages env mb session u (selectMessages env mb.mid u)).events ++
                [Event.releaseLock, Event.sizeRequest]),
            .ok (processMessages env mb session u (selectMessages env mb.mid u)).writes,
            env.messages.filter (fun m =>
              !((processMessages env mb session u
                  (selectMessages env mb.mid u)).deletedIds.contains m.mid))⟩
        | some e =>
          ⟨Event.acquireLock ::
              ((processMessages env mb session u (selectMessages env mb.mid u)).events ++
                [Event.releaseLock, Event.sizeRequest, Event.releaseLock]),
            errToResult e,
            env.messages.filter (fun m =>
              !((processMessages env mb session u
                  (selectMessages env mb.mid u)).deletedIds.contains m.mid))⟩

/-- What a front-end (delegate) handler reports through `fn`: `okWrites`
for EXPUNGE's replay-writes-then-`fn(null, bool)`, `okData` for
UNSUBSCRIBE's `fn(null, ...data)`, `imapCode` for `fn(null,
err.imapResponse)`, `fnErr` for a generic failure `fn(err)`. -/
inductive DelegateResult where
  | okWrites (bool : Bool) (writes : List (String × Nat))
  | okData (data : List Bool)
  | imapCode (code : String)
  | fnErr (e : Err)
  deriving DecidableEq, Repr

/-- Front-end (`IMAP` role) path of `onExpunge`: forward the verb over the
RPC bridge; on success replay the returned writes and report the boolean;
the catch around the request passes any error straight to `fn(err)`. -/
def onExpungeDelegate (rpc : Except Err (Bool × List (String × Nat))) : DelegateResult :=
  match rpc with
  | .ok (bool, writes) => .okWrites bool writes
  | .error e => .fnErr e

/-- Front-end (`this.wsp` set) path of `onUnsubscribe`
(`helpers/on-close.js`): forward over the RPC bridge; on an error carrying
`imapResponse` report `fn(null, err.imapResponse)`, otherwise `fn(err)`. -/
def onUnsubscribeDelegate (rpc : Except Err (List Bool)) : DelegateResult :=
  match rpc with
  | .ok data => .okData data
  | .error e =>
    match e.imapResponse with
    | some code => .imapCode code
    | none => .fnErr e

/-- Modelled from the spec: `refineAndLogError` (`helpers/refine-and-log-error`,
not under `src/`) logs the error with session context and returns it for the
protocol layer; per the propagation policy, protocol-level errors keep their
attached response code ("protocol-level errors (anything with an attached
response code) are translated directly into the wire-level rejection the
client expects"), so it is modelled as the identity on the error value. -/
def refineAndLogError (e : Err) : Err := e

/-- What the backend UNSUBSCRIBE reports: `fn(null, true)` or
`fn(refineAndLogError(err))`. -/
inductive UnsubResult where
  | ok
  | fnErr (e : Err)
  deriving DecidableEq, Repr

/-- Outcome of one backend UNSUBSCRIBE invocation: the mailbox table
afterward, the callback report, and the event trace (which is empty: this
path acquires no lock and appends no Change Entry). -/
structure UnsubOutcome where
  mailboxes : List Mailbox
  result : UnsubResult
  events : List Event
  deriving Repr

/-- Mongoose `findOneAndUpdate({path}, {$set: {subscribed: false}})`:
clear the subscription flag of the first mailbox matching `path`. -/
def clearSubscribed : List Mailbox → String → List Mailbox
  | [], _ => []
  | mb :: rest, path =>
    if mb.path == path then { mb with subscribed := false } :: rest
    else mb :: clearSubscribed rest path

/-- Backend path of `onUnsubscribe` (`helpers/on-close.js`): locate the
mailbox by path and clear its subscription flag in one `findOneAndUpdate`;
when no mailbox matches, the thrown `NONEXISTENT` `IMAPError` reaches
`fn(refineAndLogError(err))`. No lock is acquired and no Change Entry is
written on either branch. -/
def onUnsubscribeBackend (mailboxes : List Mailbox) (path : String) : UnsubOutcome :=
  match mailboxes.find? (fun mb => mb.path == path) with
  | some _ => ⟨clearSubscribed mailboxes path, .ok, []⟩
  | none => ⟨mailboxes, .fnErr (refineAndLogError ⟨some "NONEXISTENT"⟩), []⟩

/-- Environment of one `wss.broadcast` call: the connected clients and the
echo events `(clientId, timeMs)` at which a client sends the 36-byte uuid
back (adding it to `uuidsReceived`). -/
structure BroadcastEnv where
  clients : List Nat
  echoes : List (Nat × Nat)
  deriving DecidableEq, Repr

/-- Well-formedness of a broadcast environment: echoes only come from
connected clients. -/
def BroadcastEnv.valid (env : BroadcastEnv) : Prop :=
  ∀ p ∈ env.echoes, p.1 ∈ env.clients

/-- How one `wss.broadcast` call ends: `delivered t` when the
`pWaitFor` poll first sees the uuid in `uuidsReceived` at time `t` within
the bound, `timeoutErr t` when `pWaitFor` rejects with its timeout error
at time `t` (the error is rethrown with `isCodeBug` set). -/
inductive BroadcastResult where
  | delivered (timeMs : Nat)
  | timeoutErr (timeMs : Nat)
  deriving DecidableEq, Repr

/-- The `ms('5s')` bound passed to `pWaitFor` by `wss.broadcast`. -/
def broadcastTimeoutMs : Nat := 5000

/-- Run record of one `wss.broadcast` call: which clients were sent the
packed `{uuid, session_id, alias_id, payload}` frame, how the call ended,
and whether the uuid was deleted from `uuidsReceived` on the way out. -/
structure BroadcastRun where
  sends : List Nat
  result : BroadcastResult
  uuidDeleted : Bool
  deriving DecidableEq, Repr

/-- Earliest time in a list of echo times. -/
def minTime : List Nat → Option Nat
  | [] => none
  | t :: ts =>
    match minTime ts with
    | none => some t
    | some u => some (min t u)

/-- The `wss.broadcast` function (`sqlite-server` class): pack the fresh
uuid with the session and payload and send it to every connected client
(the early-exit check inside the synchronous send loop can never fire for
a fresh uuid, so every client is sent the frame), then `pWaitFor` with
`interval: 0` and a `ms('5s')` timeout for the uuid to appear in
`uuidsReceived`; on success delete the uuid from the set and return, on
timeout rethrow the timeout error. -/
def broadcast (env : BroadcastEnv) : BroadcastRun :=
  match minTime (env.echoes.map Prod.snd) with
  | some t =>
    if t ≤ broadcastTimeoutMs then ⟨env.clients, .delivered t, true⟩
    else ⟨env.clients, .timeoutErr broadcastTimeoutMs, false⟩
  | none => ⟨env.clients, .timeoutErr broadcastTimeoutMs, false⟩

/-- Basic-auth credentials presented on a websocket upgrade request. -/
structure Credentials where
  name : String
  deriving DecidableEq, Repr

/-- Environment of one upgrade authentication: the parsed credentials (if
any), the `decrypt` function (`none` models a thrown decryption error) and
the configured `env.API_SECRETS` allow-list. -/
structure AuthEnv where
  credentials : Option Credentials
  decryptFn : String → Option String
  apiSecrets : List String

/-- Result of the `authenticate` callback: `ok` for `fn()`,
`unauthorized m` for `fn(Boom.unauthorized(...))`, `codeBug` for a caught
exception passed to `fn(err)` with `isCodeBug` set. -/
inductive AuthResult where
  | ok
  | unauthorized (message : String)
  | codeBug
  deriving DecidableEq, Repr

/-- The `authenticate` function of the `sqlite-server` class: reject when
credentials are missing or the name is not a nonempty string; reject when
the decrypted name is not among `env.API_SECRETS`; a thrown error (e.g.
from `decrypt`) is caught and passed to the callback. -/
def authenticate (env : AuthEnv) : AuthResult :=
  match env.credentials with
  | none => .unauthorized "INVALID_API_CREDENTIALS"
  | some c =>
    if c.name = "" then .unauthorized "INVALID_API_CREDENTIALS"
    else
      match env.decryptFn c.name with
      | none => .codeBug
      | some v =>
        if env.apiSecrets.contains v then .ok
        else .unauthorized "INVALID_API_TOKEN"

/-- Outcome of one `upgrade` event: either the websocket connection is
established (`wss.handleUpgrade` + `connection` emit) or the socket is
written an HTTP status line and destroyed. -/
inductive UpgradeOutcome where
  | connected
  | destroyed (statusLine : String)
  deriving DecidableEq, Repr

/-- The `upgrade` listener of the `sqlite-server` class: run
`authenticate`; on any error write `HTTP/1.1 <statusCode> <error>` —
`Boom.unauthorized` carries `output.statusCode = 401` and
`output.payload.error = 'Unauthorized'`, and a plain caught error falls
back to `401`/`Unauthorized` — then destroy the socket; otherwise complete
the websocket handshake. -/
def handleUpgrade (env : AuthEnv) : UpgradeOutcome :=
  match authenticate env with
  | .ok => .connected
  | .unauthorized _ => .destroyed "HTTP/1.1 401 Unauthorized"
  | .codeBug => .destroyed "HTTP/1.1 401 Unauthorized"

/-- Effect of one inbound websocket frame on the backend: whether the data
reached `parsePayload`, which uuid (if any) was added to `uuidsReceived`,
and the scheduled delay after which that uuid is deleted again. -/
structure MsgEffect where
  forwarded : Bool
  ackAdded : Option String
  ackRemoveDelayMs : Nat
  deriving DecidableEq, Repr

/-- The `message` listener of the `sqlite-server` class: empty data
returns early; a 4-byte frame equal to `ping` returns early; a 36-byte
frame is a broadcast acknowledgment — its content is added to
`uuidsReceived` and scheduled for deletion after `1000` ms — and
everything else is handed to `parsePayload`. -/
def handleWsMessage (data : String) : MsgEffect :=
  if data = "" then ⟨false, none, 0⟩
  else if data.length == 4 && data == "ping" then ⟨false, none, 0⟩
  else if data.length == 36 then ⟨false, some data, 1000⟩
  else ⟨true, none, 0⟩

/-! Concrete instances used to evaluate the model on the spec's scenarios. -/

/-- The spec's EXPUNGE scenario: mailbox `INBOX` (id 1), two soft-deleted
messages at UIDs 5 and 9 (stored out of UID order), every collaborator
call succeeding. -/
def envA : ExpungeEnv :=
  { mailboxes := [⟨1, "INBOX", true⟩]
    messages := [⟨10, 1, 9, false, []⟩, ⟨11, 1, 5, false, []⟩]
    lockError := none
    queryError := none
    deleteResult := fun _ => .ok 1
    attachFail := fun _ => false
    entriesFail := fun _ => false }

/-- The scenario's update descriptor: `isUid = false`, not silent. -/
def updA : Update := ⟨false, 0, 0, false⟩

/-- The scenario's session: mailbox 1 selected, account `alias_id` 7. -/
def sessA : Session := ⟨some 1, 7⟩

/-- Variant of the scenario in which `Messages.deleteOne` throws a
storage error for every row. -/
def envC : ExpungeEnv := { envA with deleteResult := fun _ => .error ⟨none⟩ }

/-- One mailbox with one soft-deleted message at UID 5 carrying
attachments 3 and 4. -/
def envB : ExpungeEnv :=
  { envA with messages := [⟨10, 1, 5, false, [3, 4]⟩] }

/-- C1: COUNTEREXAMPLE. In the spec's scenario (backend EXPUNGE,
`update.isUid = false`, soft-deleted messages at UIDs 5 and 9, all
collaborator calls succeeding) the notifier is fired TWICE for the owning
account — `notifier.fire` sits inside the per-message loop — so the
claim's "fired exactly once" is false. -/
theorem expunge_scenario_fire_not_once :
    (onExpungeBackend envA 1 updA sessA).events.count (Event.fire 7) = 2 ∧
    ¬ (onExpungeBackend envA 1 updA sessA).events.count (Event.fire 7) = 1 := by
  decide

/-- C1 (amended): in the spec's scenario both message rows are deleted,
the two EXPUNGE writes are queued in ascending order (UID 5 then UID 9),
one Change Entry is appended per deleted UID, the notifier is fired once
per deleted message (hence twice) for the owning account, and the lock is
acquired exactly once and released exactly once. -/
theorem expunge_scenario_two_messages :
    (onExpungeBackend envA 1 updA sessA).remaining = [] ∧
    (onExpungeBackend envA 1 updA sessA).result =
      .ok [("EXPUNGE", 5), ("EXPUNGE", 9)] ∧
    (onExpungeBackend envA 1 updA sessA).events.count (Event.addEntries 5) = 1 ∧
    (onExpungeBackend envA 1 updA sessA).events.count (Event.addEntries 9) = 1 ∧
    (onExpungeBackend envA 1 updA sessA).events.count (Event.fire 7) = 2 ∧
    (onExpungeBackend envA 1 updA sessA).events.count Event.acquireLock = 1 ∧
    (onExpungeBackend envA 1 updA sessA).events.count Event.releaseLock = 1 := by
  decide

/-- C8: when the mailboxId matches no mailbox of the session's account,
backend EXPUNGE reports protocol code `NONEXISTENT` to the callback, its
event trace is empty (in particular no lock is acquired), and no message
row is deleted. -/
theorem expunge_mailbox_missing (env : ExpungeEnv) (mailboxId : Nat) (u : Update)
    (session : Session)
    (h : env.mailboxes.find? (fun mb => mb.mid == mailboxId) = none) :
    (onExpungeBackend env mailboxId u session).result = .imapCode "NONEXISTENT" ∧
    (onExpungeBackend env mailboxId u session).events = [] ∧
    (onExpungeBackend env mailboxId u session).remaining = env.messages := by
  simp [onExpungeBackend, h]

/-- C8 witness: the scenario environment has no mailbox with id 2. -/
theorem expunge_mailbox_missing_witness :
    (onExpungeBackend envA 2 updA sessA).result = .imapCode "NONEXISTENT" ∧
    (onExpungeBackend envA 2 updA sessA).events = [] ∧
    (onExpungeBackend envA 2 updA sessA).remaining = envA.messages :=
  expunge_mailbox_missing envA 2 updA sessA (by decide)

/-- C4: COUNTEREXAMPLE. The EXPUNGE delegate path passes an RPC error
carrying `imapResponse = NONEXISTENT` to the callback as a generic
failure `fn(err)` — its catch block never inspects `imapResponse` — so
the claim that BOTH handlers report `fn(null, code)` is false. -/
theorem expunge_delegate_code_not_mapped :
    onExpungeDelegate (.error ⟨some "NONEXISTENT"⟩) =
      .fnErr ⟨some "NONEXISTENT"⟩ ∧
    onExpungeDelegate (.error ⟨some "NONEXISTENT"⟩) ≠
      .imapCode "NONEXISTENT" := by
  decide

/-- C4 (amended): in delegate mode, only the UNSUBSCRIBE handler reports
an RPC error's attached `imapResponse` code as `fn(null, code)`; the
EXPUNGE delegate handler passes every RPC error through to `fn(err)` as a
generic failure. -/
theorem delegate_error_code_mapping (e : Err) (code : String)
    (h : e.imapResponse = some code) :
    onUnsubscribeDelegate (.error e) = .imapCode code ∧
    onExpungeDelegate (.error e) = .fnErr e := by
  exact ⟨by simp [onUnsubscribeDelegate, h], rfl⟩

/-- C4 witness: a `NONEXISTENT`-carrying RPC error under both handlers. -/
theorem delegate_error_code_mapping_witness :
    onUnsubscribeDelegate (.error ⟨some "NONEXISTENT"⟩) =
      .imapCode "NONEXISTENT" ∧
    onExpungeDelegate (.error ⟨some "NONEXISTENT"⟩) =
      .fnErr ⟨some "NONEXISTENT"⟩ :=
  delegate_error_code_mapping ⟨some "NONEXISTENT"⟩ "NONEXISTENT" rfl

/-- The first error encountered by a backend EXPUNGE invocation while
processing messages under the lock: either the error thrown by the select
statement or the error that aborted the per-message loop. -/
def firstError (env : ExpungeEnv) (mb : Mailbox) (session : Session) (u : Update) :
    Option Err :=
  match env.queryError with
  | some e => some e
  | none => (processMessages env mb session u (selectMessages env mb.mid u)).err

/-- The protocol writes queued by a backend EXPUNGE invocation. -/
def queuedWrites (env : ExpungeEnv) (mb : Mailbox) (session : Session) (u : Update) :
    List (String × Nat) :=
  match env.queryError with
  | some _ => []
  | none => (processMessages env mb session u (selectMessages env mb.mid u)).writes

/-- C2: every backend EXPUNGE invocation that acquires the lock (the
mailbox resolves and `acquireLock` does not throw) has a `releaseLock`
attempt in its completed event trace — the callback is only invoked at the
end of that trace, so release is attempted before the first encountered
error reaches the caller and before the success report — and on success
the invocation reports `fn(null, true, writes)` with the queued writes,
while the first encountered error is otherwise mapped onto the callback. -/
theorem expunge_release_and_propagation (env : ExpungeEnv) (mailboxId : Nat)
    (u : Update) (session : Session) (mb : Mailbox)
    (hmb : env.mailboxes.find? (fun b => b.mid == mailboxId) = some mb)
    (hlock : env.lockError = none) :
    Event.releaseLock ∈ (onExpungeBackend env mailboxId u session).events ∧
    (∀ e, firstError env mb session u = some e →
      (onExpungeBackend env mailboxId u session).result = errToResult e) ∧
    (firstError env mb session u = none →
      (onExpungeBackend env mailboxId u session).result =
        FnResult.ok (queuedWrites env mb session u)) := by
  unfold onExpungeBackend firstError queuedWrites
  rw [hmb, hlock]
  cases hq : env.queryError with
  | some e => simp
  | none =>
    cases hr : (processMessages env mb session u (selectMessages env mb.mid u)).err with
    | none => simp [hr]
    | some e => simp [hr]

/-- C2 witness: with `deleteOne` throwing a plain storage error on every
row, the trace still contains a release and the error reaches the caller
as a generic failure; the success half is witnessed on the all-succeeding
scenario environment. -/
theorem expunge_release_and_propagation_witness :
    (Event.releaseLock ∈ (onExpungeBackend envC 1 updA sessA).events ∧
      (onExpungeBackend envC 1 updA sessA).result = errToResult ⟨none⟩) ∧
    (onExpungeBackend envA 1 updA sessA).result =
      FnResult.ok (queuedWrites envA ⟨1, "INBOX", true⟩ sessA updA) :=
  ⟨⟨(expunge_release_and_propagation envC 1 updA sessA ⟨1, "INBOX", true⟩
        (by decide) rfl).1,
    (expunge_release_and_propagation envC 1 updA sessA ⟨1, "INBOX", true⟩
        (by decide) rfl).2.1 ⟨none⟩ (by decide)⟩,
   (expunge_release_and_propagation envA 1 updA sessA ⟨1, "INBOX", true⟩
        (by decide) rfl).2.2 (by decide)⟩

/-- The UIDs of the writes queued by the per-message loop form a
subsequence of the UIDs of the processed messages, in processing order. -/
theorem processMessages_writes_sublist (env : ExpungeEnv) (mb : Mailbox)
    (session : Session) (u : Update) :
    ∀ msgs : List Message,
      ((processMessages env mb session u msgs).writes.map Prod.snd).Sublist
        (msgs.map Message.uid)
  | [] => by simp [processMessages]
  | m :: rest => by
    have ih := processMessages_writes_sublist env mb session u rest
    simp only [processMessages, List.map_cons]
    cases hd : env.deleteResult m.mid with
    | error e => simp
    | ok c =>
      by_cases hc : (c == 1) = true
      · simp only [hc, if_true, List.map_append]
        unfold deletedWrites
        by_cases hw : (!u.silent || session.selectedMailbox == some mb.mid) = true
        · simpa [hw] using List.Sublist.cons₂ m.uid ih
        · simpa [hw] using List.Sublist.cons m.uid ih
      · simp only [hc, if_false]
        exact List.Sublist.cons m.uid ih

/-- C3: the backend EXPUNGE query selects exactly the rows of the target
mailbox whose `undeleted` flag is false (restricted to the UID range when
`update.isUid`), returns them in ascending UID order, and consequently
every successful invocation's queued EXPUNGE notifications carry ascending
UIDs. -/
theorem expunge_selection_and_order (env : ExpungeEnv) (mailboxId : Nat)
    (u : Update) (session : Session) :
    List.Perm (selectMessages env mailboxId u)
      (env.messages.filter (matchesCondition mailboxId u)) ∧
    List.Sorted uidLE (selectMessages env mailboxId u) ∧
    (∀ ws, (onExpungeBackend env mailboxId u session).result = FnResult.ok ws →
      List.Sorted (fun a b => a ≤ b) (ws.map Prod.snd)) := by
  refine ⟨List.perm_insertionSort uidLE _, List.sorted_insertionSort uidLE _, ?_⟩
  intro ws hws
  unfold onExpungeBackend at hws
  cases hf : env.mailboxes.find? (fun b => b.mid == mailboxId) with
  | none => simp [hf] at hws
  | some mb =>
    cases hl : env.lockError with
    | some e =>
      cases he : e.imapResponse <;> simp [hf, hl, errToResult, he] at hws
    | none =>
      cases hq : env.queryError with
      | some e =>
        cases he : e.imapResponse <;> simp [hf, hl, hq, errToResult, he] at hws
      | none =>
        cases hr : (processMessages env mb session u (selectMessages env mb.mid u)).err with
        | some e =>
          cases he : e.imapResponse <;> simp [hf, hl, hq, hr, errToResult, he] at hws
        | none =>
          simp [hf, hl, hq, hr] at hws
          subst hws
          have hsub := processMessages_writes_sublist env mb session u
            (selectMessages env mb.mid u)
          have hsorted : List.Pairwise (fun a b : Nat => a ≤ b)
              ((selectMessages env mb.mid u).map Message.uid) :=
            List.Pairwise.map Message.uid (fun _ _ hab => hab)
              (List.sorted_insertionSort uidLE _)
          exact List.Pairwise.sublist hsub hsorted

/-- C3 witness: the scenario environment's selection and the queued
writes of its successful invocation. -/
theorem expunge_selection_and_order_witness :
    List.Perm (selectMessages envA 1 updA)
      (envA.messages.filter (matchesCondition 1 updA)) ∧
    List.Sorted uidLE (selectMessages envA 1 updA) ∧
    List.Sorted (fun a b => a ≤ b)
      (([("EXPUNGE", 5), ("EXPUNGE", 9)] : List (String × Nat)).map Prod.snd) :=
  ⟨(expunge_selection_and_order envA 1 updA sessA).1,
   (expunge_selection_and_order envA 1 updA sessA).2.1,
   (expunge_selection_and_order envA 1 updA sessA).2.2
     [("EXPUNGE", 5), ("EXPUNGE", 9)] (by decide)⟩

/-- Environment equal to `env` except for the injected `deleteMany`
failures. -/
def setAttachFail (env : ExpungeEnv) (g : Nat → Bool) : ExpungeEnv :=
  { env with attachFail := g }

theorem setAttachFail_mailboxes (env : ExpungeEnv) (g : Nat → Bool) :
    (setAttachFail env g).mailboxes = env.mailboxes := rfl

theorem setAttachFail_messages (env : ExpungeEnv) (g : Nat → Bool) :
    (setAttachFail env g).messages = env.messages := rfl

theorem setAttachFail_lockError (env : ExpungeEnv) (g : Nat → Bool) :
    (setAttachFail env g).lockError = env.lockError := rfl

theorem setAttachFail_queryError (env : ExpungeEnv) (g : Nat → Bool) :
    (setAttachFail env g).queryError = env.queryError := rfl

theorem setAttachFail_deleteResult (env : ExpungeEnv) (g : Nat → Bool) :
    (setAttachFail env g).deleteResult = env.deleteResult := rfl

theorem setAttachFail_selectMessages (env : ExpungeEnv) (g : Nat → Bool)
    (mailboxId : Nat) (u : Update) :
    selectMessages (setAttachFail env g) mailboxId u = selectMessages env mailboxId u := rfl

/-- The per-message loop's queued writes, deleted ids and captured error
do not depend on whether `attachmentStorage.deleteMany` throws: its error
is caught and logged inside the loop. -/
theorem processMessages_attachFail_invariant (env : ExpungeEnv) (g : Nat → Bool)
    (mb : Mailbox) (session : Session) (u : Update) :
    ∀ msgs : List Message,
      (processMessages (setAttachFail env g) mb session u msgs).writes =
        (processMessages env mb session u msgs).writes ∧
      (processMessages (setAttachFail env g) mb session u msgs).deletedIds =
        (processMessages env mb session u msgs).deletedIds ∧
      (processMessages (setAttachFail env g) mb session u msgs).err =
        (processMessages env mb session u msgs).err
  | [] => by simp [processMessages]
  | m :: rest => by
    have ih := processMessages_attachFail_invariant env g mb session u rest
    simp only [processMessages, setAttachFail_deleteResult]
    cases hd : env.deleteResult m.mid with
    | error e => simp
    | ok c =>
      by_cases hc : (c == 1) = true
      · simp [hc, ih.1, ih.2.1, ih.2.2]
      · simp [hc, ih.1, ih.2.1, ih.2.2]

/-- Presence of a `deleteMany ids` event among the events of one deleted
message pins `ids` to that message's nonempty attachment map. -/
theorem deleteMany_mem_deletedEvents (env : ExpungeEnv) (session : Session)
    (m : Message) (ids : List Nat)
    (h : Event.deleteMany ids ∈ deletedEvents env session m) :
    m.attachmentIds = ids ∧ ids ≠ [] := by
  unfold deletedEvents at h
  by_cases ha : m.attachmentIds.length > 0
  · rw [if_pos ha] at h
    have hne : m.attachmentIds ≠ [] := by
      intro hnil; rw [hnil] at ha; simp at ha
    rcases List.mem_append.mp h with h1 | h2
    · rcases List.mem_cons.mp h1 with he | htail
      · injection he with he'
        subst he'
        exact ⟨rfl, hne⟩
      · cases hg : env.attachFail m.mid <;> rw [hg] at htail <;> simp at htail
    · cases hk : env.entriesFail m.mid <;> rw [hk] at h2 <;> simp at h2
  · rw [if_neg ha, List.nil_append] at h
    cases hk : env.entriesFail m.mid <;> rw [hk] at h <;> simp at h

/-- A `deleteMany` event in the loop's trace always belongs to a processed
message with a nonempty attachment map whose row deletion affected exactly
one row. -/
theorem processMessages_deleteMany_only_deleted (env : ExpungeEnv) (mb : Mailbox)
    (session : Session) (u : Update) :
    ∀ (msgs : List Message) (ids : List Nat),
      Event.deleteMany ids ∈ (processMessages env mb session u msgs).events →
      ∃ m, m ∈ msgs ∧ m.attachmentIds = ids ∧ ids ≠ [] ∧
        env.deleteResult m.mid = .ok 1
  | [], ids => by simp [processMessages]
  | m :: rest, ids => by
    intro hmem
    simp only [processMessages] at hmem
    cases hd : env.deleteResult m.mid with
    | error e =>
      rw [hd] at hmem
      simp at hmem
    | ok c =>
      rw [hd] at hmem
      by_cases hc : (c == 1) = true
      · have hc1 : c = 1 := by simpa using hc
        simp only [hc, if_true, List.mem_cons, List.mem_append] at hmem
        rcases hmem with h | h | h
        · exact absurd h (by simp)
        · rcases deleteMany_mem_deletedEvents env session m ids h with ⟨hids, hne⟩
          exact ⟨m, List.mem_cons_self m rest, hids, hne, by rw [hd, hc1]⟩
        · rcases processMessages_deleteMany_only_deleted env mb session u rest ids h with
            ⟨m', hm', hrest⟩
          exact ⟨m', List.mem_cons_of_mem m hm', hrest⟩
      · simp only [if_neg hc, List.mem_cons] at hmem
        rcases hmem with h | h
        · exact absurd h (by simp)
        · rcases processMessages_deleteMany_only_deleted env mb session u rest ids h with
            ⟨m', hm', hrest⟩
          exact ⟨m', List.mem_cons_of_mem m hm', hrest⟩

/-- C6: attachment garbage collection is attempted only for messages whose
row deletion affected exactly one row (and whose attachment map is
nonempty), and an error thrown by `deleteMany` is confined to a logged
event: the callback report and the resulting message table of the whole
invocation are unchanged under any injection of `deleteMany` failures, so
the remaining matching messages are still processed and the EXPUNGE can
still return success. -/
theorem expunge_attachment_gc_nonfatal (env : ExpungeEnv) (g : Nat → Bool)
    (mailboxId : Nat) (u : Update) (session : Session) :
    (∀ (mb : Mailbox) (msgs : List Message) (ids : List Nat),
      Event.deleteMany ids ∈ (processMessages env mb session u msgs).events →
      ∃ m, m ∈ msgs ∧ m.attachmentIds = ids ∧ ids ≠ [] ∧
        env.deleteResult m.mid = .ok 1) ∧
    (onExpungeBackend (setAttachFail env g) mailboxId u session).result =
      (onExpungeBackend env mailboxId u session).result ∧
    (onExpungeBackend (setAttachFail env g) mailboxId u session).remaining =
      (onExpungeBackend env mailboxId u session).remaining := by
  refine ⟨fun mb msgs ids h =>
    processMessages_deleteMany_only_deleted env mb session u msgs ids h, ?_⟩
  unfold onExpungeBackend
  cases hf : env.mailboxes.find? (fun b => b.mid == mailboxId) with
  | none => simp [setAttachFail_mailboxes, setAttachFail_messages, hf]
  | some mb =>
    have hinv := processMessages_attachFail_invariant env g mb session u
      (selectMessages env mb.mid u)
    cases hl : env.lockError with
    | some e =>
      simp [setAttachFail_mailboxes, setAttachFail_messages, setAttachFail_lockError,
        hf, hl]
    | none =>
      cases hq : env.queryError with
      | some e =>
        simp [setAttachFail_mailboxes, setAttachFail_messages, setAttachFail_lockError,
          setAttachFail_queryError, hf, hl, hq]
      | none =>
        cases hr : (processMessages env mb session u (selectMessages env mb.mid u)).err with
        | none =>
          have hr' : (processMessages (setAttachFail env g) mb session u
              (selectMessages env mb.mid u)).err = none := by
            rw [hinv.2.2, hr]
          simp only [setAttachFail_mailboxes, setAttachFail_messages,
            setAttachFail_lockError, setAttachFail_queryError,
            setAttachFail_selectMessages, hf, hl, hq, hr, hr']
          simp [hinv.1, hinv.2.1]
        | some e =>
          have hr' : (processMessages (setAttachFail env g) mb session u
              (selectMessages env mb.mid u)).err = some e := by
            rw [hinv.2.2, hr]
          simp only [setAttachFail_mailboxes, setAttachFail_messages,
            setAttachFail_lockError, setAttachFail_queryError,
            setAttachFail_selectMessages, hf, hl, hq, hr, hr']
          simp [hinv.1, hinv.2.1]

/-- C6 witness: a message with attachments 3 and 4 whose deletion
succeeds; the `deleteMany` event occurs in the loop trace, and injecting a
`deleteMany` failure on every message leaves the reported result
unchanged. -/
theorem expunge_attachment_gc_nonfatal_witness :
    (∃ m, m ∈ [(⟨10, 1, 5, false, [3, 4]⟩ : Message)] ∧
      m.attachmentIds = [3, 4] ∧ ([3, 4] : List Nat) ≠ [] ∧
      envB.deleteResult m.mid = .ok 1) ∧
    (onExpungeBackend (setAttachFail envB (fun _ => true)) 1 updA sessA).result =
      (onExpungeBackend envB 1 updA sessA).result :=
  ⟨(expunge_attachment_gc_nonfatal envB (fun _ => true) 1 updA sessA).1
      ⟨1, "INBOX", true⟩ [⟨10, 1, 5, false, [3, 4]⟩] [3, 4] (by decide),
   (expunge_attachment_gc_nonfatal envB (fun _ => true) 1 updA sessA).2.1⟩

/-- Clearing the subscription of the first mailbox matched by path leaves
a mailbox with that path unsubscribed in the table. -/
theorem clearSubscribed_clears :
    ∀ (mbs : List Mailbox) (path : String) (mb : Mailbox),
      mbs.find? (fun b => b.path == path) = some mb →
      ∃ mb', mb' ∈ clearSubscribed mbs path ∧ mb'.path = path ∧ mb'.subscribed = false
  | [], path, mb => by simp
  | a :: rest, path, mb => by
    intro hf
    unfold clearSubscribed
    by_cases hp : (a.path == path) = true
    · rw [if_pos hp]
      exact ⟨{ a with subscribed := false },
        List.mem_cons_self _ _, eq_of_beq hp, rfl⟩
    · rw [if_neg hp]
      have hfind : List.find? (fun b => b.path == path) (a :: rest) =
          List.find? (fun b => b.path == path) rest :=
        List.find?_cons_of_neg rest hp
      rw [hfind] at hf
      rcases clearSubscribed_clears rest path mb hf with ⟨mb', hmem, hrest⟩
      exact ⟨mb', List.mem_cons_of_mem a hmem, hrest⟩

/-- C7: backend UNSUBSCRIBE with an existing mailbox path clears that
mailbox's subscription flag and reports success; with a path matching no
mailbox it fails with an error carrying protocol code `NONEXISTENT`, its
event trace is empty (no lock acquired, no Change Entry written), and the
mailbox table is untouched. -/
theorem unsubscribe_backend_semantics (mbs : List Mailbox) (path : String) :
    (∀ mb, mbs.find? (fun b => b.path == path) = some mb →
      (onUnsubscribeBackend mbs path).result = .ok ∧
      (∃ mb', mb' ∈ (onUnsubscribeBackend mbs path).mailboxes ∧
        mb'.path = path ∧ mb'.subscribed = false) ∧
      (onUnsubscribeBackend mbs path).events = []) ∧
    (mbs.find? (fun b => b.path == path) = none →
      (onUnsubscribeBackend mbs path).result = .fnErr ⟨some "NONEXISTENT"⟩ ∧
      (onUnsubscribeBackend mbs path).mailboxes = mbs ∧
      (onUnsubscribeBackend mbs path).events = []) := by
  constructor
  · intro mb hf
    unfold onUnsubscribeBackend
    rw [hf]
    exact ⟨rfl, clearSubscribed_clears mbs path mb hf, rfl⟩
  · intro hf
    unfold onUnsubscribeBackend
    rw [hf]
    exact ⟨rfl, rfl, rfl⟩

/-- C7 witness: a table holding only `INBOX` — unsubscribing `INBOX`
succeeds and clears the flag, unsubscribing `Archive` reports
`NONEXISTENT` with no events. -/
theorem unsubscribe_backend_semantics_witness :
    ((onUnsubscribeBackend [⟨1, "INBOX", true⟩] "INBOX").result = .ok ∧
      (∃ mb', mb' ∈ (onUnsubscribeBackend [⟨1, "INBOX", true⟩] "INBOX").mailboxes ∧
        mb'.path = "INBOX" ∧ mb'.subscribed = false) ∧
      (onUnsubscribeBackend [⟨1, "INBOX", true⟩] "INBOX").events = []) ∧
    ((onUnsubscribeBackend [⟨1, "INBOX", true⟩] "Archive").result =
        .fnErr ⟨some "NONEXISTENT"⟩ ∧
      (onUnsubscribeBackend [⟨1, "INBOX", true⟩] "Archive").mailboxes =
        [⟨1, "INBOX", true⟩] ∧
      (onUnsubscribeBackend [⟨1, "INBOX", true⟩] "Archive").events = []) :=
  ⟨(unsubscribe_backend_semantics [⟨1, "INBOX", true⟩] "INBOX").1
      ⟨1, "INBOX", true⟩ (by decide),
   (unsubscribe_backend_semantics [⟨1, "INBOX", true⟩] "Archive").2 (by decide)⟩

/-- The minimum of a list of times is one of them. -/
theorem minTime_mem : ∀ {ts : List Nat} {t : Nat}, minTime ts = some t → t ∈ ts
  | [], t => by simp [minTime]
  | a :: ts, t => by
    intro h
    simp only [minTime] at h
    cases hm : minTime ts with
    | none =>
      rw [hm] at h
      injection h with h'
      subst h'
      exact List.mem_cons_self _ _
    | some u =>
      rw [hm] at h
      injection h with h'
      subst h'
      rw [Nat.min_def]
      by_cases hle : a ≤ u
      · rw [if_pos hle]
        exact List.mem_cons_self _ _
      · rw [if_neg hle]
        exact List.mem_cons_of_mem a (minTime_mem hm)

/-- Unfolding of `broadcast` when some echo exists. -/
theorem broadcast_eq_some (env : BroadcastEnv) (t : Nat)
    (hm : minTime (env.echoes.map Prod.snd) = some t) :
    broadcast env =
      if t ≤ broadcastTimeoutMs then ⟨env.clients, .delivered t, true⟩
      else ⟨env.clients, .timeoutErr broadcastTimeoutMs, false⟩ := by
  unfold broadcast
  rw [hm]

/-- Unfolding of `broadcast` when no echo exists. -/
theorem broadcast_eq_none (env : BroadcastEnv)
    (hm : minTime (env.echoes.map Prod.snd) = none) :
    broadcast env = ⟨env.clients, .timeoutErr broadcastTimeoutMs, false⟩ := by
  unfold broadcast
  rw [hm]

/-- C5: `wss.broadcast` sends the packed frame to every connected client;
when some client echoes the uuid back within the 5000 ms bound the call
resolves at the earliest such echo and deletes the uuid from
`uuidsReceived`; when no echo arrives within the bound — in particular
when no clients are connected — the call fails with the timeout error
exactly at the bound, never before it. -/
theorem broadcast_ack_semantics (env : BroadcastEnv) :
    (broadcast env).sends = env.clients ∧
    (∀ t, minTime (env.echoes.map Prod.snd) = some t → t ≤ broadcastTimeoutMs →
      (broadcast env).result = .delivered t ∧ (broadcast env).uuidDeleted = true) ∧
    ((∀ p ∈ env.echoes, ¬ p.2 ≤ broadcastTimeoutMs) →
      (broadcast env).result = .timeoutErr broadcastTimeoutMs) ∧
    (env.clients = [] → env.valid →
      (broadcast env).sends = [] ∧
      (broadcast env).result = .timeoutErr broadcastTimeoutMs) := by
  refine ⟨?_, ?_, ?_, ?_⟩
  · cases hm : minTime (env.echoes.map Prod.snd) with
    | none => rw [broadcast_eq_none env hm]
    | some t =>
      rw [broadcast_eq_some env t hm]
      by_cases ht : t ≤ broadcastTimeoutMs <;> simp [ht]
  · intro t hm ht
    rw [broadcast_eq_some env t hm, if_pos ht]
    exact ⟨rfl, rfl⟩
  · intro hall
    cases hm : minTime (env.echoes.map Prod.snd) with
    | none => rw [broadcast_eq_none env hm]
    | some t =>
      have hmem : t ∈ env.echoes.map Prod.snd := minTime_mem hm
      rcases List.mem_map.mp hmem with ⟨p, hp, hpt⟩
      have hnt : ¬ t ≤ broadcastTimeoutMs := hpt ▸ hall p hp
      rw [broadcast_eq_some env t hm, if_neg hnt]
  · intro hcl hvalid
    have hech : env.echoes = [] := by
      cases hech : env.echoes with
      | nil => rfl
      | cons p ps =>
        have := hvalid p (by rw [hech]; exact List.mem_cons_self _ _)
        rw [hcl] at this
        exact absurd this (List.not_mem_nil _)
    have hm : minTime (env.echoes.map Prod.snd) = none := by
      rw [hech]; rfl
    rw [broadcast_eq_none env hm]
    exact ⟨hcl, rfl⟩

/-- C5 witness: one client echoing at 100 ms gives delivery at 100 ms with
the uuid removed; the client-less environment times out at 5000 ms. -/
theorem broadcast_ack_semantics_witness :
    ((broadcast ⟨[7], [(7, 100)]⟩).result = .delivered 100 ∧
      (broadcast ⟨[7], [(7, 100)]⟩).uuidDeleted = true) ∧
    ((broadcast ⟨[], []⟩).sends = [] ∧
      (broadcast ⟨[], []⟩).result = .timeoutErr broadcastTimeoutMs) :=
  ⟨(broadcast_ack_semantics ⟨[7], [(7, 100)]⟩).2.1 100 rfl (by decide),
   (broadcast_ack_semantics ⟨[], []⟩).2.2.2 rfl (fun p hp =>
      absurd hp (List.not_mem_nil p))⟩

/-- Characterization of a successful upgrade authentication: credentials
are present, the name is nonempty, and its decryption lies in the
configured allow-list. -/
theorem authenticate_ok_iff (env : AuthEnv) :
    authenticate env = .ok ↔
      ∃ c, env.credentials = some c ∧ c.name ≠ "" ∧
        ∃ v, env.decryptFn c.name = some v ∧ v ∈ env.apiSecrets := by
  cases hc : env.credentials with
  | none => simp [authenticate, hc]
  | some c =>
    by_cases hn : c.name = ""
    · simp [authenticate, hc, hn]
    · cases hd : env.decryptFn c.name with
      | none => simp [authenticate, hc, hd, hn]
      | some v =>
        by_cases hv : env.apiSecrets.contains v = true
        · have hmem : v ∈ env.apiSecrets := List.mem_of_elem_eq_true hv
          simp [authenticate, hc, hd, hn, hv, hmem]
        · have hmem : v ∉ env.apiSecrets := fun hm => hv (List.elem_eq_true_of_mem hm)
          simp [authenticate, hc, hd, hn, hv, hmem]

/-- C9: a websocket upgrade request is accepted exactly when its
basic-auth name decrypts to a value in the configured `API_SECRETS`
allow-list; every other request — missing or blank name, failed
decryption, or a decrypted name outside the list — has the socket written
an HTTP `401 Unauthorized` status line and destroyed, and no websocket
connection is established. -/
theorem upgrade_auth_iff (env : AuthEnv) :
    (handleUpgrade env = .connected ↔
      ∃ c, env.credentials = some c ∧ c.name ≠ "" ∧
        ∃ v, env.decryptFn c.name = some v ∧ v ∈ env.apiSecrets) ∧
    (handleUpgrade env ≠ .connected →
      handleUpgrade env = .destroyed "HTTP/1.1 401 Unauthorized") := by
  constructor
  · rw [← authenticate_ok_iff]
    unfold handleUpgrade
    cases authenticate env <;> simp
  · unfold handleUpgrade
    cases authenticate env <;> simp

/-- C9 witness: a credential decrypting into the allow-list connects; the
credential-less request is rejected with the `401` status line. -/
theorem upgrade_auth_iff_witness :
    handleUpgrade ⟨some ⟨"tok"⟩,
      (fun s => if s = "tok" then some "secret1" else none), ["secret1"]⟩ =
      .connected ∧
    handleUpgrade ⟨none,
      (fun s => if s = "tok" then some "secret1" else none), ["secret1"]⟩ =
      .destroyed "HTTP/1.1 401 Unauthorized" :=
  ⟨(upgrade_auth_iff ⟨some ⟨"tok"⟩,
      (fun s => if s = "tok" then some "secret1" else none), ["secret1"]⟩).1.mpr
    ⟨⟨"tok"⟩, rfl, by decide, "secret1", by decide, by decide⟩,
   (upgrade_auth_iff ⟨none,
      (fun s => if s = "tok" then some "secret1" else none), ["secret1"]⟩).2
    (by decide)⟩

/-- C10: an inbound websocket frame equal to `ping` is ignored, a 36-byte
frame is recorded as a broadcast acknowledgment (added to `uuidsReceived`
with a scheduled removal 1000 ms later), neither reaches `parsePayload`,
and exactly the remaining non-empty frames are forwarded to the RPC
payload parser. -/
theorem ws_message_dispatch (data : String) :
    (data = "ping" → handleWsMessage data = ⟨false, none, 0⟩) ∧
    (data.length = 36 → handleWsMessage data = ⟨false, some data, 1000⟩) ∧
    ((handleWsMessage data).forwarded = true ↔
      data ≠ "" ∧ data ≠ "ping" ∧ data.length ≠ 36) := by
  refine ⟨?_, ?_, ?_⟩
  · intro h
    subst h
    decide
  · intro h36
    have h0 : data ≠ "" := by
      intro h
      rw [h] at h36
      exact absurd h36 (by decide)
    have hp : data ≠ "ping" := by
      intro h
      rw [h] at h36
      exact absurd h36 (by decide)
    have hcond : ¬ (data.length == 4 && data == "ping") = true := by
      intro hb
      exact hp (eq_of_beq ((Bool.and_eq_true _ _).mp hb).2)
    unfold handleWsMessage
    rw [if_neg h0, if_neg hcond, if_pos (by simp [h36])]
  · by_cases h0 : data = ""
    · simp [handleWsMessage, h0]
    · by_cases hp : data = "ping"
      · subst hp
        decide
      · have hcond : ¬ (data.length == 4 && data == "ping") = true := by
          intro hb
          exact hp (eq_of_beq ((Bool.and_eq_true _ _).mp hb).2)
        by_cases h36 : data.length = 36
        · simp [handleWsMessage, h0, hcond, h36]
        · simp [handleWsMessage, h0, hp, hcond, h36]

/-- C10 witness: the keepalive frame, a 36-byte uuid frame, and an
ordinary payload frame. -/
theorem ws_message_dispatch_witness :
    handleWsMessage "ping" = ⟨false, none, 0⟩ ∧
    handleWsMessage "123e4567-e89b-12d3-a456-426614174000" =
      ⟨false, some "123e4567-e89b-12d3-a456-426614174000", 1000⟩ ∧
    (handleWsMessage "payload").forwarded = true :=
  ⟨(ws_message_dispatch "ping").1 rfl,
   (ws_message_dispatch "123e4567-e89b-12d3-a456-426614174000").2.1 (by decide),
   ((ws_message_dispatch "payload").2.2).mpr ⟨by decide, by decide, by decide⟩⟩

end ForwardEmail
